import Mathlib

/-!
Shallow embedding of the `ot2_driver` protopiler (`protopiler.py`) and the
parts of its resource-manager interface that the compiler touches.  Python
values of type `Union[int, str, List[int]]` (volumes) and `Union[str,
List[str]]` (locations) are embedded as tagged unions; Python exceptions are
embedded as `Except String`.  Python string operations (`split`, `join`,
`strip`, `isdigit`, membership tests) are reproduced on Lean strings.
-/

deriving instance DecidableEq for Except

/-- Python prefix test on character lists. -/
def charsPre : List Char → List Char → Bool
  | [], _ => true
  | _ :: _, [] => false
  | a :: as, b :: bs => a == b && charsPre as bs

/-- Python substring test (`needle in hay`) on character lists. -/
def charsSub (needle : List Char) : List Char → Bool
  | [] => charsPre needle []
  | b :: t => charsPre needle (b :: t) || charsSub needle t

/-- Python `needle in hay` for strings. -/
def strContains (hay needle : String) : Bool :=
  charsSub needle.toList hay.toList

/-- Python `str.isdigit`: nonempty and every character a digit. -/
def pyIsdigit (s : String) : Bool :=
  !s.toList.isEmpty && s.toList.all (fun c => c.isDigit)

/-- Python `s[1:]`: the string without its first character. -/
def pyDrop1 (s : String) : String :=
  String.mk (s.toList.drop 1)

/-- Split a character list on a single separator character, keeping empty
segments (Python `str.split(c)`). -/
def splitOnChar (c : Char) : List Char → List (List Char)
  | [] => [[]]
  | x :: xs =>
      let r := splitOnChar c xs
      if x == c then [] :: r
      else
        match r with
        | [] => [[x]]
        | h :: t => (x :: h) :: t

/-- Split a character list on a two-character separator, keeping empty
segments (Python `str.split(ab)`). -/
def splitOnPair (a b : Char) : List Char → List (List Char)
  | [] => [[]]
  | [x] => [[x]]
  | x :: y :: rest =>
      if x == a && y == b then [] :: splitOnPair a b rest
      else
        match splitOnPair a b (y :: rest) with
        | [] => [[x]]
        | h :: t => (x :: h) :: t

/-- Python `s.split(":")`. -/
def splitColon (s : String) : List String :=
  (splitOnChar ':' s.toList).map String.mk

/-- Python `s.split(", ")`. -/
def splitCommaSpace (s : String) : List String :=
  (splitOnPair ',' ' ' s.toList).map String.mk

/-- Python `":".join(parts)`. -/
def joinColon : List String → String
  | [] => ""
  | [x] => x
  | x :: rest => x ++ ":" ++ joinColon rest

/-- Value of one decimal digit character. -/
def digitVal (c : Char) : Nat := c.toNat - '0'.toNat

/-- Decimal value of a digit list. -/
def digitsToNat (l : List Char) : Nat :=
  l.foldl (fun acc c => acc * 10 + digitVal c) 0

/-- Python `int(s)` on the decimal strings a resource table holds: optional
sign followed by digits, ValueError otherwise. -/
def pyToInt (s : String) : Except String Int :=
  match s.toList with
  | [] => .error ("ValueError: invalid literal for int: " ++ s)
  | '-' :: rest =>
      if !rest.isEmpty && rest.all (fun c => c.isDigit) then
        .ok (-(digitsToNat rest : Int))
      else .error ("ValueError: invalid literal for int: " ++ s)
  | l =>
      if l.all (fun c => c.isDigit) then .ok (digitsToNat l : Int)
      else .error ("ValueError: invalid literal for int: " ++ s)

/-- Character class stripped by Python `s.strip("][")`. -/
def isBracket (c : Char) : Bool := c == '[' || c == ']'

/-- Python `s.strip("][")`: remove leading and trailing bracket characters. -/
def stripBrackets (s : String) : String :=
  String.mk (((s.toList.dropWhile isBracket).reverse.dropWhile isBracket).reverse)

/-- Python `zip` over three sequences: truncates to the shortest. -/
def pyZip3 {α β γ : Type} : List α → List β → List γ → List (α × β × γ)
  | a :: as, b :: bs, c :: cs => (a, b, c) :: pyZip3 as bs cs
  | _, _, _ => []

/-- Booleans as counters. -/
def b2n (b : Bool) : Nat := if b then 1 else 0

/-- A resource table: pandas dataframe viewed as column name to column values. -/
abbrev Table := List (String × List String)

/-- A `Resource` config entry: `{name, location}` of an external table. -/
structure Resource where
  name : String
  location : String

/-- Volume field of a command: Python `int`, `str` (column reference), or
list of `int`. -/
inductive VField where
  | int (n : Int)
  | str (s : String)
  | list (l : List Int)
deriving DecidableEq

/-- Location field (source or destination): Python `str` or list of `str`. -/
inductive LField where
  | str (s : String)
  | list (l : List String)
deriving DecidableEq

/-- A command block of the recipe (`Command` of `config.py`):
name, volume, source, destination, drop_tip. -/
structure Command where
  name : Option String
  volume : VField
  source : LField
  destination : LField
  drop_tip : Bool
deriving DecidableEq

/-- An elementary (volume, source, destination) triple yielded by
`_process_instruction`. -/
abbrev ET := VField × String × String

/-- Embedding of `ProtoPiler.load_resources`: sets `self.resources = {}` and
then populates it only when the container it just emptied is truthy.  The
external `pd.read_excel` is a parameter. -/
def load_resources (read_excel : String → Table) (resources : List Resource) :
    List (String × Table) :=
  let self_resources : List (String × Table) := []
  if !self_resources.isEmpty then
    resources.foldl (fun acc r => acc ++ [(r.name, read_excel r.location)]) self_resources
  else
    self_resources

/-- Embedding of `ProtoPiler._unpack_alias` on a string command element:
split off the outer alias, strip brackets from the remainder, split on
`", "`, drop empty segments, and prefix unaliased elements with the outer
alias. -/
def unpack_alias (command_elem : String) : List String :=
  let aliasSeg := (splitColon command_elem).headD ""
  let process_source := joinColon (splitColon command_elem).tail
  let locs := splitCommaSpace (stripBrackets process_source)
  locs.foldl
    (fun acc location =>
      if location.length = 0 then acc
      else if !strContains location ":" then acc ++ [aliasSeg ++ ":" ++ location]
      else acc ++ [location])
    []

/-- The alias/bracket unpacking step applied to a raw field
(`if ":[" in field: field = self._unpack_alias(field)`); on a Python list the
membership test checks elements, and `_unpack_alias` on a list would fail on
`.split`. -/
def unpackStep (field : LField) : Except String LField :=
  match field with
  | .str s => .ok (if strContains s ":[" then .list (unpack_alias s) else .str s)
  | .list l =>
      if l.contains ":[" then
        .error "AttributeError: list object has no attribute split"
      else .ok (.list l)

/-- Peek element of a field (`field[0]` when it is a list, the field itself
otherwise); an empty list raises IndexError. -/
def peekElem (field : LField) : Except String String :=
  match field with
  | .str s => .ok s
  | .list [] => .error "IndexError: list index out of range"
  | .list (x :: _) => .ok x

/-- The column-resolution step of `_postprocess_commands`:
`self.resources[resource_key][peek_well]` with `resource_key` the first key
of `self.resources` (NameError when that mapping is empty, because
`resource_key` was never bound), then one new location per row, prefixed with
the original field's segment before the first colon (AttributeError when the
field is a list, since lists have no `split`). -/
def resolve_from_table (resources : List (String × Table)) (peek_well : String)
    (field : LField) : Except String LField :=
  match resources with
  | [] => .error "NameError: name resource_key is not defined"
  | (_, table) :: _ =>
      match table.lookup peek_well with
      | none => .error ("KeyError: " ++ peek_well)
      | some col =>
          match field with
          | .str s =>
              .ok (.list (col.map (fun loc => (splitColon s).headD "" ++ ":" ++ loc)))
          | .list _ =>
              if col.isEmpty then .ok (.list [])
              else .error "AttributeError: list object has no attribute split"

/-- Loop body of `_postprocess_commands` for one command: unpack the source,
peek its terminal segment, column-resolve the source when that segment is not
a well identifier; then unpack the destination, peek it (the peeked value is
never consulted again — the code keeps using the source's `peek_well`), and
column-resolve the destination under the *source's* terminal-segment test. -/
def postprocess_one (resources : List (String × Table)) (command : Command) :
    Except String Command :=
  match unpackStep command.source with
  | .error e => .error e
  | .ok src1 =>
      match peekElem src1 with
      | .error e => .error e
      | .ok peek_elem =>
          let peek_well := (splitColon peek_elem).getLastD ""
          let srcRes :=
            if !pyIsdigit peek_well && !pyIsdigit (pyDrop1 peek_well) then
              resolve_from_table resources peek_well src1
            else .ok src1
          match srcRes with
          | .error e => .error e
          | .ok src2 =>
              match unpackStep command.destination with
              | .error e => .error e
              | .ok dst1 =>
                  match peekElem dst1 with
                  | .error e => .error e
                  | .ok _ =>
                      let dstRes :=
                        if !pyIsdigit peek_well && !pyIsdigit (pyDrop1 peek_well) then
                          resolve_from_table resources peek_well dst1
                        else .ok dst1
                      match dstRes with
                      | .error e => .error e
                      | .ok dst2 =>
                          .ok { command with source := src2, destination := dst2 }

/-- Python `int(...)` over a column of raw string values, first failure
raising ValueError. -/
def ints_of : List String → Except String (List Int)
  | [] => .ok []
  | s :: rest =>
      match pyToInt s with
      | .error e => .error e
      | .ok n =>
          match ints_of rest with
          | .error e => .error e
          | .ok ns => .ok (n :: ns)

/-- The volume step of `_postprocess_commands` (source lines after the loop):
when the volume is neither an int nor a list, replace it with the
integer-parsed values of that column of the first resource table. -/
def postprocess_volume (resources : List (String × Table)) (command : Command) :
    Except String Command :=
  match command.volume with
  | .int _ => .ok command
  | .list _ => .ok command
  | .str v =>
      match resources with
      | [] => .error "NameError: name resource_key is not defined"
      | (_, table) :: _ =>
          match table.lookup v with
          | none => .error ("KeyError: " ++ v)
          | some col =>
              match ints_of col with
              | .error e => .error e
              | .ok ns => .ok { command with volume := .list ns }

/-- The per-command loop of `_postprocess_commands`, left to right. -/
def postprocess_list (resources : List (String × Table)) :
    List Command → Except String (List Command)
  | [] => .ok []
  | c :: rest =>
      match postprocess_one resources c with
      | .error e => .error e
      | .ok c1 =>
          match postprocess_list resources rest with
          | .error e => .error e
          | .ok cs => .ok (c1 :: cs)

/-- Embedding of `ProtoPiler._postprocess_commands`: run the per-command loop
over all commands, then apply the volume-resolution statement, which sits
*outside* the loop and therefore touches only the loop variable left over
from the final iteration (NameError when the command list is empty). -/
def postprocess_commands (resources : List (String × Table))
    (commands : List Command) : Except String (List Command) :=
  match postprocess_list resources commands with
  | .error e => .error e
  | .ok cs =>
      match cs.getLast? with
      | none => .error "NameError: name command is not defined"
      | some last =>
          match postprocess_volume resources last with
          | .error e => .error e
          | .ok last2 => .ok (cs.dropLast ++ [last2])

/-- Volume step of `_process_instruction`'s general branch: a one-element
list is collapsed to its scalar (leaving `iter_len` untouched at 0), any
other list sets `iter_len` to its length, a non-list leaves `iter_len` at
0. -/
def procVolume (v : VField) : VField × Nat :=
  match v with
  | .list l => if l.length = 1 then (.int (l.headD 0), 0) else (.list l, l.length)
  | v => (v, 0)

/-- Source/destination step of `_process_instruction`'s general branch: on a
list whose length clashes with a nonzero `iter_len`, a one-element list is
collapsed to its element and any other raises; afterwards `iter_len` is set
to `len(...)` of the *current* field value — the character count when the
field was just collapsed to a string. -/
def procListField (msg : String) (field : LField) (iter_len : Nat) :
    Except String (LField × Nat) :=
  match field with
  | .str s => .ok (.str s, iter_len)
  | .list l =>
      if iter_len ≠ 0 ∧ l.length ≠ iter_len then
        if l.length = 1 then
          let s := l.headD ""
          .ok (.str s, s.length)
        else .error msg
      else .ok (.list l, l.length)

/-- General branch of `_process_instruction`: determine the iteration
dimension (mutating the block), build the three sequences with
`itertools.repeat` for non-lists, and zip them. -/
def processElse (cmd : Command) : Except String (List ET × Command) :=
  match procListField "Multiple iterables found, cannot deterine dimension to iterate over"
      cmd.source (procVolume cmd.volume).2 with
  | .error e => .error e
  | .ok (src1, il2) =>
      match procListField
          "Multiple iterables of differnet lengths found, cannot deterine dimension to iterate over"
          cmd.destination il2 with
      | .error e => .error e
      | .ok (dst1, il3) =>
          let vol1 := (procVolume cmd.volume).1
          let volumes : List VField :=
            match vol1 with
            | .list l => l.map VField.int
            | v => List.replicate il3 v
          let sources : List String :=
            match src1 with
            | .list l => l
            | .str s => List.replicate il3 s
          let destinations : List String :=
            match dst1 with
            | .list l => l
            | .str s => List.replicate il3 s
          .ok (pyZip3 volumes sources destinations,
               { cmd with volume := vol1, source := src1, destination := dst1 })

/-- Embedding of `ProtoPiler._process_instruction`: a fully scalar block
yields its single triple unchanged; otherwise the general broadcast branch
runs.  The second component is the block as left mutated by the call. -/
def process_instruction (cmd : Command) : Except String (List ET × Command) :=
  match cmd.volume, cmd.source, cmd.destination with
  | .int v, .str s, .str d => .ok ([(.int v, s, d)], cmd)
  | _, _, _ => processElse cmd

/-- A pipette mount. -/
inductive Mount where
  | left
  | right
deriving DecidableEq

/-- The `tip_loaded` dictionary of `_create_commands`: one flag per mount. -/
structure TipLoaded where
  left : Bool
  right : Bool
deriving DecidableEq

/-- Read the flag of one mount. -/
def TipLoaded.get (t : TipLoaded) : Mount → Bool
  | .left => t.left
  | .right => t.right

/-- Write the flag of one mount. -/
def TipLoaded.set (t : TipLoaded) : Mount → Bool → TipLoaded
  | .left, b => ⟨b, t.right⟩
  | .right, b => ⟨t.left, b⟩

/-- A labware location value: Python `str` or list of `str`. -/
inductive LabLoc where
  | one (s : String)
  | many (l : List String)
deriving DecidableEq

/-- A resolved device action, the structured content of one emitted command
snippet of `_create_commands`. -/
inductive DAction where
  | comment (s : String)
  | pickTip (mount : Mount) (rack : String) (well : Nat)
  | aspirate (mount : Mount) (volume : VField) (loc : Option String) (well : String)
  | dispense (mount : Mount) (volume : VField) (loc : Option String) (well : String)
  | dropTip (mount : Mount)
  | blank
deriving DecidableEq

/-- Modelled from the spec: the `ResourceManager` interface (its module
`resource_manager.py` is not among the sources; §4.1 of the spec gives its
contract).  `determinePipette` answers `determine_pipette(volume)`,
`getNextTip` answers `get_next_tip(pipette_name)` over an abstract mutable
state `σ` and may fail, `updateWellUsage` answers `update_well_usage`,
and the alias/labware/mount mappings are the dictionaries the compiler
reads directly. -/
structure ResourceManager (σ : Type) where
  determinePipette : Int → Option Mount
  mountToPipette : Mount → String
  getNextTip : σ → String → Except String ((String × Nat) × σ)
  updateWellUsage : σ → Option String → String → σ
  aliasToLocation : List (String × String)
  labwareToLocation : List (String × LabLoc)

/-- Embedding of `ProtoPiler._parse_wellplate_location`: a token with a colon
must split into exactly two parts and its alias is looked up (KeyError when
unregistered); a token without a colon is ignored and the location of the
last labware whose name contains "well" is returned instead (first element
when that location is a list), `none` when no such labware exists. -/
def parse_wellplate_location {σ : Type} (rm : ResourceManager σ)
    (command_location : String) : Except String (Option String) :=
  if strContains command_location ":" then
    match splitColon command_location with
    | [plate, _] =>
        match rm.aliasToLocation.lookup plate with
        | some loc => .ok (some loc)
        | none => .error ("KeyError: " ++ plate)
    | _ => .error ("Command: " ++ command_location ++ " is not formatted correctly...")
  else
    .ok (rm.labwareToLocation.foldl
      (fun location nl =>
        if strContains nl.1 "well" then
          match nl.2 with
          | .many (x :: _) => some x
          | .many [] => location
          | .one s => some s
        else location)
      none)

/-- The tip-check step of `_create_commands`: when the mount holds no tip,
ask the resource manager for the next tip, emit a `PickTip`, and mark the
mount loaded. -/
def tipStep {σ : Type} (rm : ResourceManager σ) (mount : Mount)
    (tl : TipLoaded) (st : σ) : Except String (List DAction × TipLoaded × σ) :=
  if tl.get mount then .ok ([], tl, st)
  else
    match rm.getNextTip st (rm.mountToPipette mount) with
    | .error e => .error e
    | .ok ((rack, well), st1) =>
        .ok ([DAction.pickTip mount rack well], tl.set mount true, st1)

/-- One iteration of the transfer loop of `_create_commands`: pipette
selection (raising the no-pipette message with the block name and volume),
tip check, aspirate at the source, dispense at the destination (updating
well usage for both), and the per-block `drop_tip`. -/
def runTransfer {σ : Type} (rm : ResourceManager σ) (block_name : String)
    (drop_tip : Bool) (tl : TipLoaded) (st : σ) (t : ET) :
    Except String (List DAction × TipLoaded × σ) :=
  match t.1 with
  | .str _ => .error "TypeError: comparison not supported between int and str"
  | .list _ => .error "TypeError: comparison not supported between int and list"
  | .int v =>
      match rm.determinePipette v with
      | none => .error ("No pipette available for " ++ block_name ++ " with volume: " ++ toString v)
      | some mount =>
          match tipStep rm mount tl st with
          | .error e => .error e
          | .ok (tipActs, tl1, st1) =>
              match parse_wellplate_location rm t.2.1 with
              | .error e => .error e
              | .ok srcLoc =>
                  let srcWell := (splitColon t.2.1).getLastD ""
                  let st2 := rm.updateWellUsage st1 srcLoc srcWell
                  match parse_wellplate_location rm t.2.2 with
                  | .error e => .error e
                  | .ok dstLoc =>
                      let dstWell := (splitColon t.2.2).getLastD ""
                      let st3 := rm.updateWellUsage st2 dstLoc dstWell
                      let dropActs := if drop_tip then [DAction.dropTip mount] else []
                      let tl2 := if drop_tip then tl1.set mount false else tl1
                      .ok (tipActs ++
                             [DAction.aspirate mount t.1 srcLoc srcWell,
                              DAction.dispense mount t.1 dstLoc dstWell] ++
                             dropActs ++ [DAction.blank],
                           tl2, st3)

/-- The transfer loop of `_create_commands` over the triples of one block. -/
def runTransfers {σ : Type} (rm : ResourceManager σ) (block_name : String)
    (drop_tip : Bool) : List ET → TipLoaded → σ →
    Except String (List DAction × TipLoaded × σ)
  | [], tl, st => .ok ([], tl, st)
  | t :: rest, tl, st =>
      match runTransfer rm block_name drop_tip tl st t with
      | .error e => .error e
      | .ok (a1, tl1, st1) =>
          match runTransfers rm block_name drop_tip rest tl1 st1 with
          | .error e => .error e
          | .ok (a2, tl2, st2) => .ok (a1 ++ a2, tl2, st2)

/-- The `block_name` of one block: its `name` or the positional
`command i`. -/
def blockName (i : Nat) (cmd : Command) : String :=
  match cmd.name with
  | some n => n
  | none => "command " ++ toString i

/-- One block of `_create_commands`: the block-name comment (positional
`command i` when unnamed), then the transfer loop over
`_process_instruction`'s triples. -/
def runBlock {σ : Type} (rm : ResourceManager σ) (i : Nat) (cmd : Command)
    (tl : TipLoaded) (st : σ) : Except String (List DAction × TipLoaded × σ) :=
  let block_name := blockName i cmd
  match process_instruction cmd with
  | .error e => .error e
  | .ok (ts, _) =>
      match runTransfers rm block_name cmd.drop_tip ts tl st with
      | .error e => .error e
      | .ok (acts, tl1, st1) => .ok (DAction.comment block_name :: acts, tl1, st1)

/-- The block loop of `_create_commands`, with the running index used for
unnamed blocks. -/
def runBlocks {σ : Type} (rm : ResourceManager σ) :
    Nat → List Command → TipLoaded → σ →
    Except String (List DAction × TipLoaded × σ)
  | _, [], tl, st => .ok ([], tl, st)
  | i, c :: rest, tl, st =>
      match runBlock rm i c tl st with
      | .error e => .error e
      | .ok (a1, tl1, st1) =>
          match runBlocks rm (i + 1) rest tl1 st1 with
          | .error e => .error e
          | .ok (a2, tl2, st2) => .ok (a1 ++ a2, tl2, st2)

/-- Embedding of `ProtoPiler._create_commands`: run every block starting
with both mounts empty, then walk the `tip_loaded` dictionary (left, then
right) and emit one trailing `DropTip` for every mount still loaded. -/
def create_commands {σ : Type} (rm : ResourceManager σ) (cmds : List Command)
    (st : σ) : Except String (List DAction × σ) :=
  match runBlocks rm 0 cmds ⟨false, false⟩ st with
  | .error e => .error e
  | .ok (acts, tl, st1) =>
      let step1 : List DAction × TipLoaded :=
        if tl.left then (acts ++ [DAction.dropTip .left], ⟨false, tl.right⟩)
        else (acts, tl)
      let step2 : List DAction × TipLoaded :=
        if step1.2.right then (step1.1 ++ [DAction.dropTip .right], ⟨step1.2.left, false⟩)
        else step1
      .ok (step2.1, st1)

/-- Number of `PickTip` actions for a mount. -/
def countPick (m : Mount) : List DAction → Nat
  | [] => 0
  | .pickTip m' _ _ :: rest => (if m' = m then 1 else 0) + countPick m rest
  | _ :: rest => countPick m rest

/-- Number of `DropTip` actions for a mount. -/
def countDrop (m : Mount) : List DAction → Nat
  | [] => 0
  | .dropTip m' :: rest => (if m' = m then 1 else 0) + countDrop m rest
  | _ :: rest => countDrop m rest

/-- Resource-manager instance used by the tip-balance witness. -/
def c6rm : ResourceManager Unit :=
  ⟨fun _ => some .left, fun _ => "p300_single_gen2", fun s _ => .ok (("1", 0), s),
   fun s _ _ => s, [("s", "2"), ("d", "3")], []⟩

/-- Block used by the tip-balance witness. -/
def c6blk : Command := ⟨some "mix", .int 50, .str "s:A1", .str "d:B1", false⟩

/-- Action sequence `create_commands` emits for `c6blk`. -/
def c6acts : List DAction :=
  [.comment "mix", .pickTip .left "1" 0,
   .aspirate .left (.int 50) (some "2") "A1",
   .dispense .left (.int 50) (some "3") "B1",
   .blank, .dropTip .left]

/-- Resource state used by the C1 evaluation: one table with a `vol` column. -/
def c1res : List (String × Table) := [("tab", [("vol", ["10", "20"])])]

/-- Resource state used by the C5 evaluation: one table with a `col` column. -/
def c5res : List (String × Table) := [("tab", [("col", ["X1", "X2"])])]

/-- Deck used by the C7 theorems: no aliases registered against `5` or `7`,
one wellplate at slot `3`, alias `s` bound to slot `2`. -/
def c7rm : ResourceManager Unit :=
  ⟨fun _ => some .left, fun _ => "p20_single_gen2", fun s _ => .ok (("9", 0), s),
   fun s _ _ => s, [("s", "2")], [("corning_96_wellplate_360ul_flat", .one "3")]⟩

/-- Resource manager with no pipette covering any volume, for the C8
witness. -/
def c8rm : ResourceManager Unit :=
  ⟨fun _ => none, fun _ => "p300_single_gen2", fun s _ => .ok (("1", 0), s),
   fun s _ _ => s, [("s", "2"), ("d", "3")], []⟩

/-- C10: for every input list of resource references, `load_resources` leaves
the in-memory resource mapping empty: the guard tests the mapping that was
just reset, so no external table is ever loaded. -/
theorem c10_load_resources_always_empty
    (read_excel : String → Table) (resources : List Resource) :
    load_resources read_excel resources = [] := rfl

theorem countPick_append (m : Mount) (a b : List DAction) :
    countPick m (a ++ b) = countPick m a + countPick m b := by
  induction a with
  | nil => simp [countPick]
  | cons x rest ih => cases x <;> (simp [countPick, ih]; try omega)

theorem countDrop_append (m : Mount) (a b : List DAction) :
    countDrop m (a ++ b) = countDrop m a + countDrop m b := by
  induction a with
  | nil => simp [countDrop]
  | cons x rest ih => cases x <;> (simp [countDrop, ih]; try omega)

theorem TipLoaded.get_set (t : TipLoaded) (m m' : Mount) (b : Bool) :
    (t.set m b).get m' = if m' = m then b else t.get m' := by
  cases m <;> cases m' <;> simp [TipLoaded.set, TipLoaded.get]

theorem tipStep_balance {σ : Type} (rm : ResourceManager σ) (mount : Mount)
    (tl : TipLoaded) (st : σ) (acts : List DAction) (tl1 : TipLoaded) (st1 : σ)
    (h : tipStep rm mount tl st = .ok (acts, tl1, st1)) :
    (∀ m, countPick m acts + b2n (tl.get m) = b2n (tl1.get m)) ∧
    (∀ m, countDrop m acts = 0) ∧ tl1.get mount = true := by
  unfold tipStep at h
  split at h
  · rename_i hload
    cases h
    exact ⟨fun m => by simp [countPick], fun m => by simp [countDrop], hload⟩
  · rename_i hload
    split at h
    · exact absurd h (by simp)
    · rename_i rack well st' heq
      cases h
      refine ⟨fun m => ?_, fun m => by simp [countDrop], by simp [TipLoaded.get_set]⟩
      by_cases hm : m = mount
      · subst hm
        simp only [Bool.not_eq_true] at hload
        simp [countPick, TipLoaded.get_set, b2n, hload]
      · simp [countPick, TipLoaded.get_set, hm, Ne.symm hm, b2n]

theorem runTransfer_balance {σ : Type} (rm : ResourceManager σ) (bn : String)
    (df : Bool) (tl : TipLoaded) (st : σ) (t : ET) (acts : List DAction)
    (tl1 : TipLoaded) (st1 : σ)
    (h : runTransfer rm bn df tl st t = .ok (acts, tl1, st1)) (m : Mount) :
    countPick m acts + b2n (tl.get m) = countDrop m acts + b2n (tl1.get m) := by
  unfold runTransfer at h
  split at h
  · exact absurd h (by simp)
  · exact absurd h (by simp)
  · split at h
    · exact absurd h (by simp)
    · rename_i mount hdp
      split at h
      · exact absurd h (by simp)
      · rename_i tipActs tlA stA htip
        split at h
        · exact absurd h (by simp)
        · split at h
          · exact absurd h (by simp)
          · cases h
            obtain ⟨hpick, hdropz, hloaded⟩ := tipStep_balance rm mount tl st tipActs tlA stA htip
            simp only [countPick_append, countDrop_append]
            cases df
            · simp [countPick, countDrop, hdropz m, ← hpick m]
            · by_cases hm : m = mount
              · subst hm
                have hp := hpick m
                cases htl : tl.get m <;>
                  simp [countPick, countDrop, hdropz m, TipLoaded.get_set, b2n, hloaded, htl]
                    at hp ⊢ <;> omega
              · have hp := hpick m
                cases htl : tl.get m <;>
                  simp [countPick, countDrop, hdropz m, TipLoaded.get_set, hm, Ne.symm hm, b2n, htl]
                    at hp ⊢ <;> omega

theorem runTransfers_balance {σ : Type} (rm : ResourceManager σ) (bn : String)
    (df : Bool) (ts : List ET) (tl : TipLoaded) (st : σ) (acts : List DAction)
    (tl1 : TipLoaded) (st1 : σ)
    (h : runTransfers rm bn df ts tl st = .ok (acts, tl1, st1)) (m : Mount) :
    countPick m acts + b2n (tl.get m) = countDrop m acts + b2n (tl1.get m) := by
  induction ts generalizing tl st acts tl1 st1 with
  | nil =>
      unfold runTransfers at h
      cases h
      simp [countPick, countDrop]
  | cons t rest ih =>
      unfold runTransfers at h
      split at h
      · exact absurd h (by simp)
      · rename_i a1 tlA stA h1
        split at h
        · exact absurd h (by simp)
        · rename_i a2 tlB stB h2
          cases h
          have e1 := runTransfer_balance rm bn df tl st t _ _ _ h1 m
          have e2 := ih _ _ _ _ _ h2
          simp only [countPick_append, countDrop_append]
          omega

theorem runBlock_balance {σ : Type} (rm : ResourceManager σ) (i : Nat)
    (cmd : Command) (tl : TipLoaded) (st : σ) (acts : List DAction)
    (tl1 : TipLoaded) (st1 : σ)
    (h : runBlock rm i cmd tl st = .ok (acts, tl1, st1)) (m : Mount) :
    countPick m acts + b2n (tl.get m) = countDrop m acts + b2n (tl1.get m) := by
  unfold runBlock at h
  split at h
  · exact absurd h (by simp)
  · rename_i ts cmd2 hpi
    dsimp only at h
    split at h
    · exact absurd h (by simp)
    · rename_i a1 tlA stA h1
      cases h
      have e1 := runTransfers_balance rm _ cmd.drop_tip ts tl st _ _ _ h1 m
      simpa [countPick, countDrop] using e1

theorem runBlocks_balance {σ : Type} (rm : ResourceManager σ) (i : Nat)
    (cmds : List Command) (tl : TipLoaded) (st : σ) (acts : List DAction)
    (tl1 : TipLoaded) (st1 : σ)
    (h : runBlocks rm i cmds tl st = .ok (acts, tl1, st1)) (m : Mount) :
    countPick m acts + b2n (tl.get m) = countDrop m acts + b2n (tl1.get m) := by
  induction cmds generalizing i tl st acts tl1 st1 with
  | nil =>
      unfold runBlocks at h
      cases h
      simp [countPick, countDrop]
  | cons c rest ih =>
      unfold runBlocks at h
      split at h
      · exact absurd h (by simp)
      · rename_i a1 tlA stA h1
        split at h
        · exact absurd h (by simp)
        · rename_i a2 tlB stB h2
          cases h
          have e1 := runBlock_balance rm i c tl st _ _ _ h1 m
          have e2 := ih (i + 1) _ _ _ _ _ h2
          simp only [countPick_append, countDrop_append]
          omega

/-- C6: for every recipe whose compilation succeeds, the number of `PickTip`
actions for a mount equals the number of `DropTip` actions for that mount in
the emitted sequence: a pick is only emitted when the mount holds no tip, a
block's `drop_tip` flag drops it, and every mount still loaded after all
blocks gets exactly one trailing `DropTip`. -/
theorem c6_tip_balance {σ : Type} (rm : ResourceManager σ) (cmds : List Command)
    (st : σ) (acts : List DAction) (st1 : σ)
    (h : create_commands rm cmds st = .ok (acts, st1)) (m : Mount) :
    countPick m acts = countDrop m acts := by
  unfold create_commands at h
  split at h
  · exact absurd h (by simp)
  · rename_i a tl stA hrb
    dsimp only at h
    have bal := runBlocks_balance rm 0 cmds ⟨false, false⟩ st _ _ _ hrb m
    cases htlL : tl.left <;> cases htlR : tl.right <;>
      simp [htlL, htlR] at h <;> rw [← h.1] <;>
      cases m <;>
      simp [countPick_append, countDrop_append, countPick, countDrop,
        TipLoaded.get, b2n, htlL, htlR] at bal ⊢ <;>
      omega

/-- Witness for C6 at a concrete one-block recipe. -/
theorem c6_tip_balance_witness :
    countPick Mount.left c6acts = countDrop Mount.left c6acts :=
  c6_tip_balance c6rm [c6blk] () c6acts () rfl Mount.left

theorem pyZip3_map_left {β γ : Type} (vs : List Int) (s : β) (d : γ) :
    pyZip3 (vs.map VField.int) (List.replicate vs.length s) (List.replicate vs.length d) =
      vs.map (fun x => (VField.int x, s, d)) := by
  induction vs with
  | nil => rfl
  | cons x rest ih => simp [pyZip3, List.replicate, ih]

theorem pyZip3_map_mid {α γ : Type} (ss : List String) (a : α) (d : γ) :
    pyZip3 (List.replicate ss.length a) ss (List.replicate ss.length d) =
      ss.map (fun x => (a, x, d)) := by
  induction ss with
  | nil => rfl
  | cons x rest ih => simp [pyZip3, List.replicate, ih]

theorem pyZip3_map_right {α β : Type} (ds : List String) (a : α) (s : β) :
    pyZip3 (List.replicate ds.length a) (List.replicate ds.length s) ds =
      ds.map (fun x => (a, s, x)) := by
  induction ds with
  | nil => rfl
  | cons x rest ih => simp [pyZip3, List.replicate, ih]

/-- C2: when exactly one of (volume, source, destination) is a list of
length `n > 1` and the other two are scalars, `_process_instruction` yields
exactly `n` triples, the i-th pairing the repeated scalars with the i-th
list element, in order (and the block is left unmutated). -/
theorem c2_broadcast (nm : Option String) (dt : Bool) (v : Int) (s d : String) :
    (∀ vs : List Int, 1 < vs.length →
      process_instruction ⟨nm, .list vs, .str s, .str d, dt⟩ =
        .ok (vs.map (fun x => (VField.int x, s, d)), ⟨nm, .list vs, .str s, .str d, dt⟩)) ∧
    (∀ ss : List String, 1 < ss.length →
      process_instruction ⟨nm, .int v, .list ss, .str d, dt⟩ =
        .ok (ss.map (fun x => (VField.int v, x, d)), ⟨nm, .int v, .list ss, .str d, dt⟩)) ∧
    (∀ ds : List String, 1 < ds.length →
      process_instruction ⟨nm, .int v, .str s, .list ds, dt⟩ =
        .ok (ds.map (fun x => (VField.int v, s, x)), ⟨nm, .int v, .str s, .list ds, dt⟩)) := by
  refine ⟨fun vs hlen => ?_, fun ss hlen => ?_, fun ds hlen => ?_⟩
  · have h1 : vs.length ≠ 1 := by omega
    simp [process_instruction, processElse, procVolume, procListField, h1,
      pyZip3_map_left]
  · simp [process_instruction, processElse, procVolume, procListField,
      pyZip3_map_mid]
  · simp [process_instruction, processElse, procVolume, procListField,
      pyZip3_map_right]

/-- Witness for C2: one concrete instance of each broadcast direction. -/
theorem c2_broadcast_witness :
    process_instruction ⟨some "w", .list [10, 20], .str "s:A1", .str "d:B1", false⟩ =
      .ok ([(VField.int 10, "s:A1", "d:B1"), (VField.int 20, "s:A1", "d:B1")],
           ⟨some "w", .list [10, 20], .str "s:A1", .str "d:B1", false⟩) ∧
    process_instruction ⟨some "w", .int 7, .list ["a:A1", "a:A2"], .str "d:B1", false⟩ =
      .ok ([(VField.int 7, "a:A1", "d:B1"), (VField.int 7, "a:A2", "d:B1")],
           ⟨some "w", .int 7, .list ["a:A1", "a:A2"], .str "d:B1", false⟩) ∧
    process_instruction ⟨some "w", .int 7, .str "s:A1", .list ["d:B1", "d:B2"], false⟩ =
      .ok ([(VField.int 7, "s:A1", "d:B1"), (VField.int 7, "s:A1", "d:B2")],
           ⟨some "w", .int 7, .str "s:A1", .list ["d:B1", "d:B2"], false⟩) :=
  ⟨(c2_broadcast (some "w") false 7 "s:A1" "d:B1").1 [10, 20] (by simp),
   (c2_broadcast (some "w") false 7 "x" "d:B1").2.1 ["a:A1", "a:A2"] (by simp),
   (c2_broadcast (some "w") false 7 "s:A1" "x").2.2 ["d:B1", "d:B2"] (by simp)⟩

/-- C1 evidence: with two blocks whose volume field is the column reference
`vol`, command preprocessing resolves the volume of the *last* block only —
the resolution statement sits outside the per-command loop — leaving the
first block's volume the unparsed string `vol`. -/
theorem c1_volume_resolved_only_for_last_block :
    postprocess_commands c1res
      [⟨some "b0", .str "vol", .str "s:A1", .str "d:B1", false⟩,
       ⟨some "b1", .str "vol", .str "s:A1", .str "d:B1", false⟩] =
      .ok [⟨some "b0", .str "vol", .str "s:A1", .str "d:B1", false⟩,
           ⟨some "b1", .list [10, 20], .str "s:A1", .str "d:B1", false⟩] := rfl

/-- C3 evidence: a length-1 list field is *not* uniformly collapsed before
the broadcast dimension is fixed.  With a singleton source list and a
length-2 destination list the code raises the ambiguous-lengths error while
the scalar-source triple yields two transfers; and a singleton volume list
with scalar source/destination yields *zero* transfers (the collapse leaves
`iter_len` at 0) while the scalar-volume triple yields one. -/
theorem c3_singleton_collapse_diverges :
    process_instruction ⟨some "b", .int 50, .list ["A:A1"], .list ["B:B1", "B:B2"], false⟩ =
      .error "Multiple iterables of differnet lengths found, cannot deterine dimension to iterate over" ∧
    process_instruction ⟨some "b", .int 50, .str "A:A1", .list ["B:B1", "B:B2"], false⟩ =
      .ok ([(.int 50, "A:A1", "B:B1"), (.int 50, "A:A1", "B:B2")],
           ⟨some "b", .int 50, .str "A:A1", .list ["B:B1", "B:B2"], false⟩) ∧
    process_instruction ⟨some "b", .list [50], .str "A:A1", .str "B:B1", false⟩ =
      .ok ([], ⟨some "b", .int 50, .str "A:A1", .str "B:B1", false⟩) ∧
    process_instruction ⟨some "b", .int 50, .str "A:A1", .str "B:B1", false⟩ =
      .ok ([(.int 50, "A:A1", "B:B1")], ⟨some "b", .int 50, .str "A:A1", .str "B:B1", false⟩) := by
  refine ⟨rfl, rfl, rfl, rfl⟩

/-- C4 evidence: volume is a list of length 2 and destination a list of
length 3 — two lists of length `> 1` with unequal lengths — yet no error is
raised: the singleton source collapses to the string `abc`, `iter_len`
becomes that string's character length 3, the destination then passes the
length check, and the zip silently emits two transfers. -/
theorem c4_unequal_lists_not_rejected :
    process_instruction ⟨some "b", .list [10, 20], .list ["abc"], .list ["B1", "B2", "B3"], false⟩ =
      .ok ([(.int 10, "abc", "B1"), (.int 20, "abc", "B2")],
           ⟨some "b", .list [10, 20], .str "abc", .list ["B1", "B2", "B3"], false⟩) := rfl

/-- C5 evidence: whether the destination is column-resolved is decided by
the *source's* terminal segment, not the destination's own.  A destination
ending in the column name `col` is left untouched when the source ends in a
well identifier; and a destination ending in the well identifier `B1` is
replaced by column rows when the source ends in a column name. -/
theorem c5_destination_follows_source_segment :
    postprocess_commands c5res [⟨some "b", .int 5, .str "s:A1", .str "d:col", false⟩] =
      .ok [⟨some "b", .int 5, .str "s:A1", .str "d:col", false⟩] ∧
    postprocess_commands c5res [⟨some "b", .int 5, .str "s:col", .str "d:B1", false⟩] =
      .ok [⟨some "b", .int 5, .list ["s:X1", "s:X2"], .list ["d:X1", "d:X2"], false⟩] :=
  ⟨rfl, rfl⟩

/-- C7 counterexample: for the colon-free token `5` the resolved slot is the
wellplate's slot `3`, not the token `5` itself — the token is ignored in the
no-colon branch. -/
theorem c7_counterexample :
    parse_wellplate_location c7rm "5" = .ok (some "3") ∧
    parse_wellplate_location c7rm "5" ≠ .ok (some "5") :=
  ⟨rfl, by decide⟩

/-- C7 amended: a token without an alias separator is ignored — the resolved
slot is the location of the deck's last "well"-named labware, the same for
every such token — while a token that splits as `alias:well` resolves by
alias lookup. -/
theorem c7_slot_resolution {σ : Type} (rm : ResourceManager σ) :
    (∀ t1 t2 : String, strContains t1 ":" = false → strContains t2 ":" = false →
      parse_wellplate_location rm t1 = parse_wellplate_location rm t2) ∧
    (∀ t plate w : String, strContains t ":" = true → splitColon t = [plate, w] →
      parse_wellplate_location rm t =
        (match rm.aliasToLocation.lookup plate with
         | some loc => .ok (some loc)
         | none => .error ("KeyError: " ++ plate))) := by
  constructor
  · intro t1 t2 h1 h2
    simp [parse_wellplate_location, h1, h2]
  · intro t plate w hc hsplit
    simp [parse_wellplate_location, hc, hsplit]

/-- Witness for the amended C7 at concrete tokens. -/
theorem c7_slot_resolution_witness :
    parse_wellplate_location c7rm "5" = parse_wellplate_location c7rm "7" ∧
    parse_wellplate_location c7rm "s:A1" = .ok (some "2") := by
  refine ⟨(c7_slot_resolution c7rm).1 "5" "7" (by decide) (by decide), ?_⟩
  have h := (c7_slot_resolution c7rm).2 "s:A1" "s" "A1" (by decide) (by decide)
  exact h.trans (by decide)

/-- C8 counterexample: the ambiguous-broadcast error raised for the block
named `blk` is a fixed string that contains neither the block's name nor any
rendering of the offending fields. -/
theorem c8_counterexample :
    process_instruction ⟨some "blk", .int 1, .list ["A", "B"], .list ["C", "D", "E"], false⟩ =
      .error "Multiple iterables of differnet lengths found, cannot deterine dimension to iterate over" ∧
    strContains
      "Multiple iterables of differnet lengths found, cannot deterine dimension to iterate over"
      "blk" = false :=
  ⟨rfl, by decide⟩

/-- C8 amended: only the no-pipette error carries the block's name and the
failing volume; the two ambiguous-broadcast-dimension errors are fixed
message strings independent of block name and field values. -/
theorem c8_error_payloads :
    (∀ (σ : Type) (rm : ResourceManager σ) (st : σ) (name : String) (v : Int)
        (s d : String) (dt : Bool), rm.determinePipette v = none →
      create_commands rm [⟨some name, .int v, .str s, .str d, dt⟩] st =
        .error ("No pipette available for " ++ name ++ " with volume: " ++ toString v)) ∧
    (∀ (nm : Option String) (dt : Bool) (v : Int) (ss ds : List String),
        1 < ss.length → 1 < ds.length → ss.length ≠ ds.length →
      process_instruction ⟨nm, .int v, .list ss, .list ds, dt⟩ =
        .error "Multiple iterables of differnet lengths found, cannot deterine dimension to iterate over") ∧
    (∀ (nm : Option String) (dt : Bool) (vs : List Int) (ss : List String) (dst : LField),
        1 < vs.length → 1 < ss.length → vs.length ≠ ss.length →
      process_instruction ⟨nm, .list vs, .list ss, dst, dt⟩ =
        .error "Multiple iterables found, cannot deterine dimension to iterate over") := by
  refine ⟨fun σ rm st name v s d dt h => ?_, fun nm dt v ss ds h1 h2 h3 => ?_,
    fun nm dt vs ss dst h1 h2 h3 => ?_⟩
  · simp [create_commands, runBlocks, runBlock, blockName, process_instruction,
      runTransfers, runTransfer, h]
  · have hz : ¬(ss.length = 0) := by omega
    have hne : ¬(ss.length = 1) := by omega
    have hd1 : ¬(ds.length = 1) := by omega
    simp [process_instruction, processElse, procVolume, procListField, hz, hne, hd1,
      Ne.symm h3]
  · have hvz : ¬(vs.length = 0) := by omega
    have hv1 : ¬(vs.length = 1) := by omega
    have hs1 : ¬(ss.length = 1) := by omega
    simp [process_instruction, processElse, procVolume, procListField, hvz, hv1, hs1,
      Ne.symm h3]

/-- Witness for the amended C8: the emitted error names the block and the
volume. -/
theorem c8_error_payloads_witness :
    create_commands c8rm [⟨some "blk", .int 7, .str "s:A1", .str "d:B1", false⟩] () =
      .error "No pipette available for blk with volume: 7" := by
  have h := c8_error_payloads.1 Unit c8rm () "blk" 7 "s:A1" "d:B1" false rfl
  exact h.trans (by decide)

/-- C9 counterexample: loading-time preprocessing rewrites a block in place —
the bracketed source `rack:[A1, A2]` becomes the expanded list, so the block
no longer equals its pre-compilation value. -/
theorem c9_counterexample :
    postprocess_commands []
      [⟨some "b", .int 5, .str "rack:[A1, A2]", .str "d:B1", false⟩] =
      .ok [⟨some "b", .int 5, .list ["rack:A1", "rack:A2"], .str "d:B1", false⟩] ∧
    (⟨some "b", .int 5, .list ["rack:A1", "rack:A2"], .str "d:B1", false⟩ : Command) ≠
      ⟨some "b", .int 5, .str "rack:[A1, A2]", .str "d:B1", false⟩ :=
  ⟨rfl, by decide⟩

/-- C9 amended: instruction blocks are mutated in place by compilation
(bracket expansion, column resolution, singleton-list collapse); a block
whose volume is an integer and whose source and destination are scalar
tokens without bracket syntax whose source terminal segment is a well
identifier passes through preprocessing and instruction processing
unchanged. -/
theorem c9_fully_scalar_blocks_unchanged (resources : List (String × Table))
    (nm : Option String) (v : Int) (s d : String) (dt : Bool)
    (hs : strContains s ":[" = false) (hd : strContains d ":[" = false)
    (hw : pyIsdigit ((splitColon s).getLastD "") = true ∨
          pyIsdigit (pyDrop1 ((splitColon s).getLastD "")) = true) :
    postprocess_commands resources [⟨nm, .int v, .str s, .str d, dt⟩] =
      .ok [⟨nm, .int v, .str s, .str d, dt⟩] ∧
    process_instruction ⟨nm, .int v, .str s, .str d, dt⟩ =
      .ok ([(.int v, s, d)], ⟨nm, .int v, .str s, .str d, dt⟩) := by
  constructor
  · simp only [List.getLastD_eq_getLast?] at hw
    rcases hw with hw | hw <;>
      simp [postprocess_commands, postprocess_list, postprocess_one, unpackStep,
        peekElem, postprocess_volume, hs, hd, hw]
  · rfl

/-- Witness for the amended C9 at a concrete fully scalar block. -/
theorem c9_fully_scalar_blocks_unchanged_witness :
    postprocess_commands [] [⟨some "b", .int 5, .str "s:A1", .str "d:B1", false⟩] =
      .ok [⟨some "b", .int 5, .str "s:A1", .str "d:B1", false⟩] ∧
    process_instruction ⟨some "b", .int 5, .str "s:A1", .str "d:B1", false⟩ =
      .ok ([(.int 5, "s:A1", "d:B1")], ⟨some "b", .int 5, .str "s:A1", .str "d:B1", false⟩) :=
  c9_fully_scalar_blocks_unchanged [] (some "b") 5 "s:A1" "d:B1" false
    (by decide) (by decide) (Or.inr (by decide))
